import Mathlib

/-!
Verification of the security middleware and validation pipeline of the
`conversaai` repository (file `frontend/src/types/api.ts` and the input
validation module): fixed-window rate limiter, one-time CSRF token set,
input sanitizer, origin validator, and field/form validator.

The TypeScript source is embedded shallowly: machine time (`Date.now()`)
is a `Nat` parameter, the in-memory `Map` backing the rate limiter is a
function `String → Option RateLimitEntry`, and the insertion-ordered JS
`Set` backing the CSRF tokens is a duplicate-free `List String` in
insertion order (oldest first).
-/

/-! ## Rate limiter (`checkRateLimit` in `api.ts`) -/

/-- One entry of the `rateLimitStore` map: `{ count, resetTime }`. -/
structure RateLimitEntry where
  count : Nat
  resetTime : Nat
deriving Repr, DecidableEq

/-- The in-memory `rateLimitStore : Map<string, RateLimitEntry>`. -/
def RateLimitStore : Type := String → Option RateLimitEntry

/-- Fresh store: no keys present. -/
def emptyStore : RateLimitStore := fun _ => none

/-- `rateLimitStore.set(key, e)`. -/
def storeSet (s : RateLimitStore) (k : String) (e : RateLimitEntry) : RateLimitStore :=
  fun k2 => if k2 = k then some e else s k2

/-- The composite key `` `${ip}:${endpoint}` ``. -/
def rlKey (ip endpoint : String) : String := ip ++ ":" ++ endpoint

/-- Result of `checkRateLimit`: `{ allowed: boolean; resetTime?: number }`. -/
structure RateLimitResult where
  allowed : Bool
  resetTime : Option Nat
deriving Repr, DecidableEq

/-- Embedding of `checkRateLimit(ip, endpoint)`.  `maxAttempts` and
`windowMs` come from `config.rateLimiting`; `now` is `Date.now()`; the
mutated module-level store is passed and returned explicitly. -/
def checkRateLimit (maxAttempts windowMs : Nat) (store : RateLimitStore)
    (ip endpoint : String) (now : Nat) : RateLimitResult × RateLimitStore :=
  let key := rlKey ip endpoint
  match store key with
  | none =>
    (⟨true, none⟩, storeSet store key ⟨1, now + windowMs⟩)
  | some current =>
    if now > current.resetTime then
      -- New window or expired window
      (⟨true, none⟩, storeSet store key ⟨1, now + windowMs⟩)
    else if current.count ≥ maxAttempts then
      (⟨false, some current.resetTime⟩, store)
    else
      -- Increment count
      (⟨true, none⟩, storeSet store key ⟨current.count + 1, current.resetTime⟩)

/-- Default `config.rateLimiting.loginAttempts` (`'5'` when the
environment variable is unset). -/
def defaultLoginAttempts : Nat := 5

/-- Default `config.rateLimiting.loginWindowMs` (`'300000'`, 5 minutes). -/
def defaultLoginWindowMs : Nat := 300000

/-- A sequence of `checkRateLimit` calls on one `(ip, endpoint)` pair at
the given times, threading the store; returns results and final store. -/
def runRateLimit (maxAttempts windowMs : Nat) (ip endpoint : String) :
    List Nat → RateLimitStore → List RateLimitResult × RateLimitStore
  | [], store => ([], store)
  | t :: ts, store =>
    let step := checkRateLimit maxAttempts windowMs store ip endpoint t
    let rest := runRateLimit maxAttempts windowMs ip endpoint ts step.2
    (step.1 :: rest.1, rest.2)

/-- A sequence of `checkRateLimit` calls with arbitrary identities,
routes and times, returning the final store. -/
def runRateLimitOps (maxAttempts windowMs : Nat) :
    List (String × String × Nat) → RateLimitStore → RateLimitStore
  | [], store => store
  | (ip, ep, t) :: rest, store =>
    runRateLimitOps maxAttempts windowMs rest
      (checkRateLimit maxAttempts windowMs store ip ep t).2

theorem storeSet_same (s : RateLimitStore) (k : String) (e : RateLimitEntry) :
    storeSet s k e k = some e := by
  simp [storeSet]

theorem runRateLimit_counts (maxAttempts windowMs : Nat) (ip endpoint : String) :
    ∀ (ts : List Nat) (store : RateLimitStore) (c rt : Nat),
    store (rlKey ip endpoint) = some ⟨c, rt⟩ →
    (∀ t ∈ ts, t ≤ rt) →
    c + ts.length ≤ maxAttempts →
    (∀ x ∈ (runRateLimit maxAttempts windowMs ip endpoint ts store).1, x.allowed = true) ∧
    (runRateLimit maxAttempts windowMs ip endpoint ts store).2 (rlKey ip endpoint)
      = some ⟨c + ts.length, rt⟩ := by
  intro ts
  induction ts with
  | nil =>
    intro store c rt hstore _ _
    simpa [runRateLimit] using hstore
  | cons t ts ih =>
    intro store c rt hstore hts hcount
    have ht : t ≤ rt := hts t (List.mem_cons_self t ts)
    have hlt : c < maxAttempts := by
      simp only [List.length_cons] at hcount; omega
    have hstep : checkRateLimit maxAttempts windowMs store ip endpoint t
        = (⟨true, none⟩, storeSet store (rlKey ip endpoint) ⟨c + 1, rt⟩) := by
      simp [checkRateLimit, hstore, Nat.not_lt.mpr ht, Nat.not_le.mpr hlt]
    have hstore2 : storeSet store (rlKey ip endpoint) ⟨c + 1, rt⟩ (rlKey ip endpoint)
        = some ⟨c + 1, rt⟩ := storeSet_same _ _ _
    have hrest := ih (storeSet store (rlKey ip endpoint) ⟨c + 1, rt⟩) (c + 1) rt hstore2
      (fun u hu => hts u (List.mem_cons_of_mem _ hu))
      (by simp only [List.length_cons] at hcount; omega)
    refine ⟨?_, ?_⟩
    · intro x hx
      simp only [runRateLimit, hstep] at hx
      rcases List.mem_cons.mp hx with h | h
      · simp [h]
      · exact hrest.1 x h
    · simp only [runRateLimit, hstep]
      simpa [Nat.add_assoc, Nat.add_comm 1 ts.length] using hrest.2

/-- C1: with `maxAttempts ≥ 1`, starting from a store with no entry for
the key, `maxAttempts` calls all within `windowMs` of the first call all
return allowed, and one more call within the same window returns
not-allowed carrying the first call's `resetTime = t0 + windowMs`; the
defaults are 5 attempts per 300000 ms. -/
theorem rateLimit_window_exhaustion (ip endpoint : String)
    (maxAttempts windowMs : Nat) (store : RateLimitStore)
    (_hmax : 1 ≤ maxAttempts)
    (h0 : store (rlKey ip endpoint) = none)
    (t0 : Nat) (ts : List Nat)
    (hlen : ts.length + 1 = maxAttempts)
    (hts : ∀ t ∈ ts, t ≤ t0 + windowMs)
    (tNext : Nat) (hNext : tNext ≤ t0 + windowMs) :
    defaultLoginAttempts = 5 ∧ defaultLoginWindowMs = 300000 ∧
    (∀ r ∈ (runRateLimit maxAttempts windowMs ip endpoint (t0 :: ts) store).1,
        r.allowed = true) ∧
    (checkRateLimit maxAttempts windowMs
        (runRateLimit maxAttempts windowMs ip endpoint (t0 :: ts) store).2
        ip endpoint tNext).1
      = ⟨false, some (t0 + windowMs)⟩ := by
  have hstep : checkRateLimit maxAttempts windowMs store ip endpoint t0
      = (⟨true, none⟩, storeSet store (rlKey ip endpoint) ⟨1, t0 + windowMs⟩) := by
    simp [checkRateLimit, h0]
  have hstore1 : storeSet store (rlKey ip endpoint) ⟨1, t0 + windowMs⟩ (rlKey ip endpoint)
      = some ⟨1, t0 + windowMs⟩ := storeSet_same _ _ _
  have hrest := runRateLimit_counts maxAttempts windowMs ip endpoint ts
    (storeSet store (rlKey ip endpoint) ⟨1, t0 + windowMs⟩) 1 (t0 + windowMs)
    hstore1 hts (by omega)
  refine ⟨rfl, rfl, ?_, ?_⟩
  · intro r hr
    simp only [runRateLimit, hstep] at hr
    rcases List.mem_cons.mp hr with h | h
    · simp [h]
    · exact hrest.1 r h
  · have hfinal : (runRateLimit maxAttempts windowMs ip endpoint (t0 :: ts) store).2
        (rlKey ip endpoint) = some ⟨1 + ts.length, t0 + windowMs⟩ := by
      simp only [runRateLimit, hstep]
      exact hrest.2
    have hge : 1 + ts.length ≥ maxAttempts := by omega
    simp [checkRateLimit, hfinal, Nat.not_lt.mpr hNext, hge]

theorem rateLimit_window_exhaustion_witness :
    1 ≤ 5 ∧
    emptyStore (rlKey "1.2.3.4" "/login") = none ∧
    ([1000, 1500, 2000, 2500] : List Nat).length + 1 = 5 ∧
    (∀ t ∈ ([1000, 1500, 2000, 2500] : List Nat), t ≤ 1000 + 300000) ∧
    3000 ≤ 1000 + 300000 ∧
    (defaultLoginAttempts = 5 ∧ defaultLoginWindowMs = 300000 ∧
      (∀ r ∈ (runRateLimit 5 300000 "1.2.3.4" "/login"
          (1000 :: [1000, 1500, 2000, 2500]) emptyStore).1, r.allowed = true) ∧
      (checkRateLimit 5 300000
          (runRateLimit 5 300000 "1.2.3.4" "/login"
            (1000 :: [1000, 1500, 2000, 2500]) emptyStore).2
          "1.2.3.4" "/login" 3000).1
        = ⟨false, some (1000 + 300000)⟩) :=
  ⟨by decide, rfl, by decide, by decide, by decide,
    rateLimit_window_exhaustion "1.2.3.4" "/login" 5 300000 emptyStore
      (by decide) rfl 1000 [1000, 1500, 2000, 2500] (by decide) (by decide)
      3000 (by decide)⟩

theorem storeSet_bound (maxAttempts : Nat) (store : RateLimitStore)
    (hinv : ∀ k e, store k = some e → e.count ≤ maxAttempts)
    (key : String) (e0 : RateLimitEntry) (he0 : e0.count ≤ maxAttempts) :
    ∀ k e, storeSet store key e0 k = some e → e.count ≤ maxAttempts := by
  intro k e h
  simp only [storeSet] at h
  split at h
  · cases h; exact he0
  · exact hinv k e h

theorem checkRateLimit_preserves_bound (maxAttempts windowMs : Nat)
    (hmax : 1 ≤ maxAttempts) (store : RateLimitStore)
    (hinv : ∀ k e, store k = some e → e.count ≤ maxAttempts)
    (ip ep : String) (t : Nat) :
    ∀ k e, (checkRateLimit maxAttempts windowMs store ip ep t).2 k = some e →
      e.count ≤ maxAttempts := by
  intro k e h
  cases hcur : store (rlKey ip ep) with
  | none =>
    simp only [checkRateLimit, hcur] at h
    exact storeSet_bound maxAttempts store hinv _ _ hmax k e h
  | some current =>
    simp only [checkRateLimit, hcur] at h
    by_cases hexp : t > current.resetTime
    · rw [if_pos hexp] at h
      exact storeSet_bound maxAttempts store hinv _ _ hmax k e h
    · rw [if_neg hexp] at h
      by_cases hfull : current.count ≥ maxAttempts
      · rw [if_pos hfull] at h
        exact hinv k e h
      · rw [if_neg hfull] at h
        exact storeSet_bound maxAttempts store hinv _
          ⟨current.count + 1, current.resetTime⟩ (by simp; omega) k e h

/-- C4: (a) in every store reachable by `checkRateLimit` calls from the
empty store with `maxAttempts ≥ 1`, every entry's `count` is at most
`maxAttempts` (in particular while its `resetTime` is in the future);
(b) a call arriving strictly after an entry's `resetTime` replaces the
entry with a fresh `{count := 1, resetTime := now + windowMs}` and is
allowed, regardless of the stored count. -/
theorem rateLimit_count_invariant (maxAttempts windowMs : Nat)
    (hmax : 1 ≤ maxAttempts) :
    (∀ (ops : List (String × String × Nat)) (k : String) (e : RateLimitEntry),
      runRateLimitOps maxAttempts windowMs ops emptyStore k = some e →
      e.count ≤ maxAttempts) ∧
    (∀ (store : RateLimitStore) (ip endpoint : String) (now : Nat)
        (e : RateLimitEntry),
      store (rlKey ip endpoint) = some e → e.resetTime < now →
      checkRateLimit maxAttempts windowMs store ip endpoint now
        = (⟨true, none⟩, storeSet store (rlKey ip endpoint) ⟨1, now + windowMs⟩)) := by
  constructor
  · have main : ∀ (ops : List (String × String × Nat)) (store : RateLimitStore),
        (∀ k e, store k = some e → e.count ≤ maxAttempts) →
        ∀ k e, runRateLimitOps maxAttempts windowMs ops store k = some e →
          e.count ≤ maxAttempts := by
      intro ops
      induction ops with
      | nil => intro store hinv k e h; exact hinv k e h
      | cons op rest ih =>
        rcases op with ⟨ip, ep, t⟩
        intro store hinv k e h
        exact ih _ (checkRateLimit_preserves_bound maxAttempts windowMs hmax
          store hinv ip ep t) k e h
    intro ops k e h
    exact main ops emptyStore (by intro k e h; simp [emptyStore] at h) k e h
  · intro store ip endpoint now e hstore hpast
    simp [checkRateLimit, hstore, hpast]

theorem rateLimit_count_invariant_witness :
    1 ≤ 5 ∧
    runRateLimitOps 5 300000 [("1.2.3.4", "/login", 0)] emptyStore
      (rlKey "1.2.3.4" "/login") = some ⟨1, 300000⟩ ∧
    (⟨1, 300000⟩ : RateLimitEntry).count ≤ 5 ∧
    storeSet emptyStore (rlKey "a" "/b") ⟨5, 10⟩ (rlKey "a" "/b") = some ⟨5, 10⟩ ∧
    (⟨5, 10⟩ : RateLimitEntry).resetTime < 11 ∧
    checkRateLimit 5 300000 (storeSet emptyStore (rlKey "a" "/b") ⟨5, 10⟩)
        "a" "/b" 11
      = (⟨true, none⟩,
          storeSet (storeSet emptyStore (rlKey "a" "/b") ⟨5, 10⟩)
            (rlKey "a" "/b") ⟨1, 11 + 300000⟩) :=
  ⟨by decide, by decide,
    (rateLimit_count_invariant 5 300000 (by decide)).1
      [("1.2.3.4", "/login", 0)] (rlKey "1.2.3.4" "/login") ⟨1, 300000⟩
      (by decide),
    by decide, by decide,
    (rateLimit_count_invariant 5 300000 (by decide)).2
      (storeSet emptyStore (rlKey "a" "/b") ⟨5, 10⟩) "a" "/b" 11 ⟨5, 10⟩
      (by decide) (by decide)⟩

/-! ## CSRF token manager (`generateCSRFToken` / `validateCSRFToken` in `api.ts`)

The module-level `csrfTokens : Set<string>` is modelled as a
duplicate-free list in insertion order, oldest first.  `crypto.randomUUID()`
is not modelled; instead `generateCSRFToken` takes the freshly produced
token string as an argument and performs the set update the source does. -/

/-- `csrfTokens.add(token)`: a JS `Set` keeps insertion order and ignores
re-insertion of an existing member. -/
def csrfAdd (tokens : List String) (t : String) : List String :=
  if t ∈ tokens then tokens else tokens ++ [t]

/-- The cleanup step of `generateCSRFToken()`: when the set holds more
than 100 entries, delete the oldest `size - 100` entries
(`Array.from(set).slice(0, size - 100)` is the front of the insertion
order). -/
def csrfTrim (tokens : List String) : List String :=
  if tokens.length > 100 then tokens.drop (tokens.length - 100) else tokens

/-- Embedding of `generateCSRFToken()`: insert the token, run the
cleanup, return the token and the new set. -/
def generateCSRFToken (t : String) (tokens : List String) :
    String × List String :=
  (t, csrfTrim (csrfAdd tokens t))

/-- Embedding of `validateCSRFToken(token)`: membership test, and removal
on success (one-time use). -/
def validateCSRFToken (t : String) (tokens : List String) :
    Bool × List String :=
  if t ∈ tokens then (true, tokens.erase t) else (false, tokens)

/-- One call against the CSRF manager. -/
inductive CsrfOp where
  | gen (t : String) : CsrfOp
  | val (t : String) : CsrfOp
deriving Repr, DecidableEq

/-- Run a sequence of `generateCSRFToken` / `validateCSRFToken` calls,
threading the token set. -/
def runCsrfOps : List CsrfOp → List String → List String
  | [], s => s
  | CsrfOp.gen t :: rest, s => runCsrfOps rest (generateCSRFToken t s).2
  | CsrfOp.val t :: rest, s => runCsrfOps rest (validateCSRFToken t s).2

theorem csrfAdd_length_le (tokens : List String) (t : String) :
    (csrfAdd tokens t).length ≤ tokens.length + 1 := by
  unfold csrfAdd
  split <;> simp

theorem csrfTrim_sublist (tokens : List String) :
    List.Sublist (csrfTrim tokens) tokens := by
  unfold csrfTrim
  split
  · exact List.drop_sublist _ _
  · exact List.Sublist.refl _

theorem csrfTrim_length_le (tokens : List String)
    (h : tokens.length ≤ 101) : (csrfTrim tokens).length ≤ 100 := by
  unfold csrfTrim
  split
  · simp only [List.length_drop]; omega
  · omega

theorem generateCSRFToken_length_le (t : String) (tokens : List String)
    (h : tokens.length ≤ 100) :
    ((generateCSRFToken t tokens).2).length ≤ 100 := by
  have hadd := csrfAdd_length_le tokens t
  exact csrfTrim_length_le _ (by omega)

theorem validateCSRFToken_length_le (t : String) (tokens : List String) :
    ((validateCSRFToken t tokens).2).length ≤ tokens.length := by
  unfold validateCSRFToken
  split
  · exact (List.erase_sublist t tokens).length_le
  · exact Nat.le_refl _

theorem runCsrfOps_length_le (ops : List CsrfOp) :
    ∀ s : List String, s.length ≤ 100 → (runCsrfOps ops s).length ≤ 100 := by
  induction ops with
  | nil => intro s h; simpa [runCsrfOps] using h
  | cons op rest ih =>
    intro s h
    cases op with
    | gen t => exact ih _ (generateCSRFToken_length_le t s h)
    | val t => exact ih _ (Nat.le_trans (validateCSRFToken_length_le t s) h)

theorem mem_drop_append {α : Type} (x : α) :
    ∀ (l : List α) (k : Nat), k ≤ l.length → x ∈ List.drop k (l ++ [x])
  | _, 0, _ => by simp
  | [], k + 1, h => by simp at h
  | a :: l, k + 1, h =>
    by simpa using mem_drop_append x l k (by simpa using h)

theorem generateCSRFToken_mem (t : String) (tokens : List String)
    (h : tokens.length ≤ 100) :
    t ∈ (generateCSRFToken t tokens).2 := by
  show t ∈ csrfTrim (csrfAdd tokens t)
  unfold csrfAdd
  by_cases hmem : t ∈ tokens
  · rw [if_pos hmem]
    unfold csrfTrim
    rw [if_neg (by omega)]
    exact hmem
  · rw [if_neg hmem]
    unfold csrfTrim
    split
    · exact mem_drop_append t tokens _
        (by simp only [List.length_append, List.length_singleton]; omega)
    · simp

theorem generateCSRFToken_suffix (t : String) (tokens : List String) :
    List.IsSuffix (generateCSRFToken t tokens).2 (csrfAdd tokens t) := by
  show List.IsSuffix (csrfTrim (csrfAdd tokens t)) (csrfAdd tokens t)
  unfold csrfTrim
  split
  · exact List.drop_suffix _ _
  · exact List.suffix_refl _

theorem csrfTrim_length (l : List String) :
    (csrfTrim l).length = min 100 l.length := by
  unfold csrfTrim
  split
  · simp only [List.length_drop]; omega
  · next h => simp only [Nat.not_lt] at h; omega

theorem csrfTrim_eq_of_le (l : List String) (h : l.length ≤ 100) :
    csrfTrim l = l := by
  unfold csrfTrim
  rw [if_neg (by omega)]

/-- C3: in every token set reachable from empty under any sequence of
generate/validate calls the set holds at most 100 tokens.  A further
`generateCSRFToken` call keeps the bound and never evicts its own token;
its result is a suffix of the set-after-insertion whose length is
exactly `min 100` of that set's length — a suffix of that exact length
is unique, so the call retains precisely the newest 100 entries (oldest,
at the front of the insertion order, dropped first) — and when the
set-after-insertion does not exceed 100 entries nothing at all is
evicted. -/
theorem csrf_capacity_bound (ops : List CsrfOp) (t : String) :
    (runCsrfOps ops []).length ≤ 100 ∧
    ((generateCSRFToken t (runCsrfOps ops [])).2).length ≤ 100 ∧
    t ∈ (generateCSRFToken t (runCsrfOps ops [])).2 ∧
    List.IsSuffix (generateCSRFToken t (runCsrfOps ops [])).2
      (csrfAdd (runCsrfOps ops []) t) ∧
    ((generateCSRFToken t (runCsrfOps ops [])).2).length
      = min 100 (csrfAdd (runCsrfOps ops []) t).length ∧
    ((csrfAdd (runCsrfOps ops []) t).length ≤ 100 →
      (generateCSRFToken t (runCsrfOps ops [])).2
        = csrfAdd (runCsrfOps ops []) t) := by
  have hreach : (runCsrfOps ops []).length ≤ 100 :=
    runCsrfOps_length_le ops [] (by simp)
  exact ⟨hreach, generateCSRFToken_length_le t _ hreach,
    generateCSRFToken_mem t _ hreach, generateCSRFToken_suffix t _,
    csrfTrim_length _, fun h => csrfTrim_eq_of_le _ h⟩

theorem csrf_capacity_bound_witness :
    (csrfAdd (runCsrfOps [CsrfOp.gen "a"] []) "b").length ≤ 100 ∧
    (generateCSRFToken "b" (runCsrfOps [CsrfOp.gen "a"] [])).2
      = csrfAdd (runCsrfOps [CsrfOp.gen "a"] []) "b" ∧
    ((generateCSRFToken "b" (runCsrfOps [CsrfOp.gen "a"] [])).2).length
      = min 100 (csrfAdd (runCsrfOps [CsrfOp.gen "a"] []) "b").length :=
  ⟨by decide,
    (csrf_capacity_bound [CsrfOp.gen "a"] "b").2.2.2.2.2 (by decide),
    (csrf_capacity_bound [CsrfOp.gen "a"] "b").2.2.2.2.1⟩

theorem csrfAdd_nodup (tokens : List String) (t : String)
    (h : tokens.Nodup) : (csrfAdd tokens t).Nodup := by
  unfold csrfAdd
  split
  · exact h
  · next hmem => simp [List.nodup_append, h, hmem]

theorem runCsrfOps_nodup (ops : List CsrfOp) :
    ∀ s : List String, s.Nodup → (runCsrfOps ops s).Nodup := by
  induction ops with
  | nil => intro s h; simpa [runCsrfOps] using h
  | cons op rest ih =>
    intro s h
    cases op with
    | gen t =>
      exact ih _ ((csrfTrim_sublist _).nodup (csrfAdd_nodup s t h))
    | val t =>
      refine ih _ ?_
      show ((validateCSRFToken t s).2).Nodup
      unfold validateCSRFToken
      split
      · exact (List.erase_sublist t s).nodup h
      · exact h

theorem csrfAdd_not_mem (tokens : List String) (t T : String)
    (hT : T ∉ tokens) (ht : t ≠ T) : T ∉ csrfAdd tokens t := by
  unfold csrfAdd
  split
  · exact hT
  · intro hm
    rcases List.mem_append.mp hm with h1 | h1
    · exact hT h1
    · simp at h1; exact ht h1.symm

theorem runCsrfOps_not_mem (T : String) (ops : List CsrfOp)
    (hops : ∀ u, CsrfOp.gen u ∈ ops → u ≠ T) :
    ∀ s : List String, T ∉ s → T ∉ runCsrfOps ops s := by
  induction ops with
  | nil => intro s h; simpa [runCsrfOps] using h
  | cons op rest ih =>
    intro s h
    cases op with
    | gen u =>
      have hu : u ≠ T := hops u (List.mem_cons_self _ _)
      refine ih (fun v hv => hops v (List.mem_cons_of_mem _ hv)) _ ?_
      show T ∉ csrfTrim (csrfAdd s u)
      intro hm
      exact csrfAdd_not_mem s u T h hu ((csrfTrim_sublist _).mem hm)
    | val u =>
      refine ih (fun v hv => hops v (List.mem_cons_of_mem _ hv)) _ ?_
      show T ∉ (validateCSRFToken u s).2
      unfold validateCSRFToken
      split
      · intro hm; exact h ((List.erase_sublist u s).mem hm)
      · exact h

theorem validateCSRFToken_mem (T : String) (s : List String) (h : T ∈ s) :
    validateCSRFToken T s = (true, s.erase T) := by
  simp [validateCSRFToken, h]

theorem validateCSRFToken_not_mem (T : String) (s : List String) (h : T ∉ s) :
    validateCSRFToken T s = (false, s) := by
  simp [validateCSRFToken, h]

set_option maxRecDepth 40000 in
/-- C2 counterexample: the claim as stated is false.  Generate the token
`"t"`, then generate 100 further (distinct) tokens; the cleanup step of
the 100th further generation evicts `"t"`, so the *first*
`validateCSRFToken("t")` call already returns `false`, not `true`. -/
theorem csrf_one_time_use_cex :
    (validateCSRFToken "t"
      (runCsrfOps
        (CsrfOp.gen "t" :: (List.range 100).map (fun i => CsrfOp.gen (toString i)))
        [])).1 = false := by
  decide

/-- C2 amended: for a token `T` generated by the manager (so present in
a reachable set), *provided `T` is still in the active set when it is
first validated* (more than 100 interleaved generations can evict it),
the first `validateCSRFToken T` returns `true` and removes `T` in the
same operation; thereafter, under any interleaving of further calls
whose generated tokens differ from `T`, every later
`validateCSRFToken T` returns `false`. -/
theorem csrf_one_time_use (ops0 : List CsrfOp) (T : String)
    (hmem : T ∈ runCsrfOps ops0 []) :
    validateCSRFToken T (runCsrfOps ops0 [])
        = (true, (runCsrfOps ops0 []).erase T) ∧
    T ∉ (runCsrfOps ops0 []).erase T ∧
    ∀ ops1 : List CsrfOp, (∀ u, CsrfOp.gen u ∈ ops1 → u ≠ T) →
      (validateCSRFToken T (runCsrfOps ops1 ((runCsrfOps ops0 []).erase T))).1
        = false := by
  have hnodup : (runCsrfOps ops0 []).Nodup :=
    runCsrfOps_nodup ops0 [] List.nodup_nil
  have hout : T ∉ (runCsrfOps ops0 []).erase T := by
    intro hm
    exact ((List.Nodup.mem_erase_iff hnodup).mp hm).1 rfl
  refine ⟨validateCSRFToken_mem T _ hmem, hout, ?_⟩
  intro ops1 hops1
  have : T ∉ runCsrfOps ops1 ((runCsrfOps ops0 []).erase T) :=
    runCsrfOps_not_mem T ops1 hops1 _ hout
  rw [validateCSRFToken_not_mem T _ this]

theorem csrf_one_time_use_witness :
    "t" ∈ runCsrfOps [CsrfOp.gen "t", CsrfOp.gen "u"] [] ∧
    (∀ u, CsrfOp.gen u ∈ [CsrfOp.val "x", CsrfOp.gen "v"] → u ≠ "t") ∧
    (validateCSRFToken "t" (runCsrfOps [CsrfOp.gen "t", CsrfOp.gen "u"] [])
        = (true, (runCsrfOps [CsrfOp.gen "t", CsrfOp.gen "u"] []).erase "t") ∧
      "t" ∉ (runCsrfOps [CsrfOp.gen "t", CsrfOp.gen "u"] []).erase "t" ∧
      ∀ ops1 : List CsrfOp, (∀ u, CsrfOp.gen u ∈ ops1 → u ≠ "t") →
        (validateCSRFToken "t"
          (runCsrfOps ops1
            ((runCsrfOps [CsrfOp.gen "t", CsrfOp.gen "u"] []).erase "t"))).1
          = false) ∧
    (validateCSRFToken "t"
      (runCsrfOps [CsrfOp.val "x", CsrfOp.gen "v"]
        ((runCsrfOps [CsrfOp.gen "t", CsrfOp.gen "u"] []).erase "t"))).1
      = false :=
  ⟨by decide,
    by intro u hu; simp only [List.mem_cons, List.not_mem_nil, or_false] at hu;
       rcases hu with h | h <;> simp_all,
    csrf_one_time_use [CsrfOp.gen "t", CsrfOp.gen "u"] "t" (by decide),
    (csrf_one_time_use [CsrfOp.gen "t", CsrfOp.gen "u"] "t" (by decide)).2.2
      [CsrfOp.val "x", CsrfOp.gen "v"]
      (by intro u hu; simp only [List.mem_cons, List.not_mem_nil, or_false] at hu;
          rcases hu with h | h <;> simp_all)⟩

/-! ## Input sanitizer (`sanitizeInput` in `api.ts`)

`sanitizeInput` chains five JS string operations:
`.replace(/[<>]/g, '')`, `.replace(/javascript:/gi, '')`,
`.replace(/on\w+=/gi, '')`, `.trim()`, `.slice(0, 10000)`.
Each regex replacement with the `g` flag scans left to right and removes
non-overlapping matches without rescanning the spliced result. -/

/-- `.replace(/[<>]/g, '')`: drop every `<` and `>`. -/
def removeAngleBrackets (s : List Char) : List Char :=
  s.filter (fun c => !(c == '<') && !(c == '>'))

/-- Does `s` start with the (lowercase ASCII) pattern, compared
case-insensitively the way a non-Unicode `i`-flag regex does? -/
def matchesCI : List Char → List Char → Bool
  | [], _ => true
  | _ :: _, [] => false
  | p :: ps, c :: cs => (c.toLower == p) && matchesCI ps cs

/-- `.replace(pat, '')` for a literal case-insensitive pattern with the
`g` flag, as the regex engine executes it: scan left to right consuming
one character per step; `skip > 0` means the scanner is inside an
already-matched region (the engine's `lastIndex` is ahead), so the
character is dropped without looking for a new match — matches are
non-overlapping and spliced text is not rescanned. -/
def removeAllMatchesCIAux (pat : List Char) : List Char → Nat → List Char
  | [], _ => []
  | _ :: cs, skip + 1 => removeAllMatchesCIAux pat cs skip
  | c :: cs, 0 =>
    if matchesCI pat (c :: cs) = true then
      removeAllMatchesCIAux pat cs (pat.length - 1)
    else
      c :: removeAllMatchesCIAux pat cs 0

/-- `.replace(pat, '')` with flags `gi`, for a nonempty lowercase
literal pattern. -/
def removeAllMatchesCI (pat : List Char) (s : List Char) : List Char :=
  removeAllMatchesCIAux pat s 0

/-- The literal pattern of `/javascript:/gi`. -/
def jsProtocolPat : List Char := "javascript:".data

/-- `\w` of a non-Unicode JS regex: `[A-Za-z0-9_]`. -/
def isWordChar (c : Char) : Bool :=
  ('a' ≤ c && c ≤ 'z') || ('A' ≤ c && c ≤ 'Z') || ('0' ≤ c && c ≤ '9') || c == '_'

/-- Length of the maximal run of word characters at the front. -/
def wordRunLength : List Char → Nat
  | [] => 0
  | c :: cs => if isWordChar c then wordRunLength cs + 1 else 0

/-- `.replace(/on\w+=/gi, '')`, as the regex engine executes it: at each
position outside a match (`skip = 0`), `on` (case-insensitive) followed
by at least one word character and then `=` starts a match (the greedy
`\w+` can only stop at the first non-word character, so a match is
exactly `on`, the maximal word run, and `=`); the whole match is
consumed without rescanning. -/
def removeEventHandlersAux : List Char → Nat → List Char
  | [], _ => []
  | _ :: cs, skip + 1 => removeEventHandlersAux cs skip
  | a :: cs, 0 =>
    match cs with
    | [] => [a]
    | b :: rest =>
      if a.toLower == 'o' && b.toLower == 'n' then
        let k := wordRunLength rest
        if 1 ≤ k ∧ (List.drop k rest).head? = some '=' then
          removeEventHandlersAux cs (k + 2)
        else
          a :: removeEventHandlersAux cs 0
      else
        a :: removeEventHandlersAux cs 0

/-- `.replace(/on\w+=/gi, '')`. -/
def removeEventHandlers (s : List Char) : List Char :=
  removeEventHandlersAux s 0

/-- The whitespace class of JS `String.prototype.trim` (ASCII whitespace
plus NBSP and the BOM; the rarer Unicode `Zs` code points are outside the
inputs considered here). -/
def isJsWhitespace (c : Char) : Bool :=
  c == ' ' || c == '\t' || c == '\n' || c == '\r' ||
  c == Char.ofNat 11 || c == Char.ofNat 12 || c == Char.ofNat 160 ||
  c == Char.ofNat 65279

/-- `.trim()`: drop leading and trailing whitespace. -/
def trimChars (s : List Char) : List Char :=
  ((s.dropWhile isJsWhitespace).reverse.dropWhile isJsWhitespace).reverse

/-- Embedding of `sanitizeInput(input)`: the five chained operations of
the source, in source order. -/
def sanitizeInput (s : String) : String :=
  String.mk
    (List.take 10000
      (trimChars
        (removeEventHandlers
          (removeAllMatchesCI jsProtocolPat
            (removeAngleBrackets s.data)))))

/-- C5: `sanitizeInput` is exactly the composition, in this order, of
angle-bracket removal, case-insensitive `javascript:` removal,
case-insensitive `on<word>=` removal, trimming, and truncation to 10000
characters; in particular the `<script>` example keeps no `<`/`>` and
the `javascript:` example loses its prefix. -/
theorem sanitizeInput_pipeline :
    (∀ s : String, sanitizeInput s
      = String.mk
          (List.take 10000
            (trimChars
              (removeEventHandlers
                (removeAllMatchesCI jsProtocolPat
                  (removeAngleBrackets s.data)))))) ∧
    (∀ c ∈ (sanitizeInput "<script>alert(1)</script>").data, c ≠ '<' ∧ c ≠ '>') ∧
    sanitizeInput "javascript:alert(1)" = "alert(1)" := by
  refine ⟨fun s => rfl, ?_, ?_⟩
  · decide
  · decide

/-! ## Origin validator (`validateOrigin` in `api.ts`)

Headers are modelled as `Option String` (`none` = header absent); a JS
`headers.get` result is *falsy* when it is `null` or the empty string.
`new URL(referer).origin` is a platform builtin, modelled as a parameter
`parseOrigin : String → Option String` where `none` stands for the
`TypeError` the constructor throws on a malformed URL.  The function
result is `Option Bool`: `none` means the exception escapes (there is no
try/catch around the call in `validateOrigin` or in `onRequest`). -/

/-- JS falsiness of a `headers.get` result: `null` or `''`. -/
def isFalsyHeader : Option String → Bool
  | none => true
  | some s => s == ""

/-- Embedding of `validateOrigin(request)`. -/
def validateOrigin (parseOrigin : String → Option String)
    (origin referer : Option String) (allowedOrigins : List String) :
    Option Bool :=
  if isFalsyHeader origin && isFalsyHeader referer then
    some true
  else if allowedOrigins.length == 0 then
    some true
  else
    let requestOrigin : Option String :=
      if !isFalsyHeader origin then origin
      else if !isFalsyHeader referer then parseOrigin (referer.getD "")
      else some ""
    match requestOrigin with
    | none => none
    | some ro => some (allowedOrigins.contains ro)

/-- C6 counterexample: the claim as stated is false.  With a non-empty
allow-list and an Origin header that is *present* but empty (and no
Referer), the source's falsiness test treats the request as having no
origin and allows it, although `""` is not a member of the allow-list —
the claim demands `false` here. -/
theorem validateOrigin_allowlist_cex :
    (["http://localhost:4321"].contains "" = false) ∧
    validateOrigin (fun _ => none) (some "") none ["http://localhost:4321"]
      = some true := by
  constructor
  · decide
  · decide

/-- C6 amended: `validateOrigin` treats empty-valued headers as absent
(JS falsiness).  It allows when both Origin and Referer are absent or
empty; it allows unconditionally when the allow-list is empty; when the
allow-list is non-empty and Origin is present with a *non-empty* value,
it returns membership of that value in the allow-list; when Origin is
absent or empty and Referer is present non-empty, the origin parsed from
Referer is used for the membership test (a parse failure escapes as an
exception, see the `onRequest` totality analysis). -/
theorem validateOrigin_allowlist (parseOrigin : String → Option String)
    (origin referer : Option String) (allowedOrigins : List String) :
    (isFalsyHeader origin = true → isFalsyHeader referer = true →
      validateOrigin parseOrigin origin referer allowedOrigins = some true) ∧
    (allowedOrigins = [] →
      validateOrigin parseOrigin origin referer allowedOrigins = some true) ∧
    (∀ s : String, allowedOrigins ≠ [] → origin = some s → s ≠ "" →
      validateOrigin parseOrigin origin referer allowedOrigins
        = some (allowedOrigins.contains s)) ∧
    (∀ r o : String, allowedOrigins ≠ [] → isFalsyHeader origin = true →
      referer = some r → r ≠ "" → parseOrigin r = some o →
      validateOrigin parseOrigin origin referer allowedOrigins
        = some (allowedOrigins.contains o)) := by
  refine ⟨?_, ?_, ?_, ?_⟩
  · intro h1 h2
    simp [validateOrigin, h1, h2]
  · intro h
    subst h
    simp only [validateOrigin, List.length_nil]
    split
    · rfl
    · rfl
  · intro s hal hor hs
    subst hor
    have hfo : isFalsyHeader (some s) = false := by
      simp [isFalsyHeader, hs]
    have hlen : (allowedOrigins.length == 0) = false := by
      simp [List.length_eq_zero, hal]
    simp [validateOrigin, hfo, hlen]
  · intro r o hal hfo href hr hparse
    subst href
    have hfr : isFalsyHeader (some r) = false := by
      simp [isFalsyHeader, hr]
    have hlen : (allowedOrigins.length == 0) = false := by
      simp [List.length_eq_zero, hal]
    simp [validateOrigin, hfo, hfr, hlen, hparse]

theorem validateOrigin_allowlist_witness :
    (isFalsyHeader (none : Option String) = true) ∧
    (["http://a"] ≠ ([] : List String)) ∧
    ("http://a" : String) ≠ "" ∧
    ((fun u => if u = "http://a/x" then some "http://a" else none) "http://a/x"
      = some "http://a") ∧
    (validateOrigin (fun _ => none) none none ["http://a"] = some true) ∧
    (validateOrigin (fun _ => none) (some "http://b") (some "r") []
      = some true) ∧
    (validateOrigin (fun _ => none) (some "http://a") none ["http://a"]
      = some (["http://a"].contains "http://a")) ∧
    (validateOrigin
        (fun u => if u = "http://a/x" then some "http://a" else none)
        none (some "http://a/x") ["http://a"]
      = some (["http://a"].contains "http://a")) :=
  ⟨rfl, by decide, by decide, by decide,
    (validateOrigin_allowlist (fun _ => none) none none ["http://a"]).1 rfl rfl,
    (validateOrigin_allowlist (fun _ => none) (some "http://b") (some "r") []).2.1 rfl,
    (validateOrigin_allowlist (fun _ => none) (some "http://a") none
      ["http://a"]).2.2.1 "http://a" (by decide) rfl (by decide),
    (validateOrigin_allowlist
      (fun u => if u = "http://a/x" then some "http://a" else none)
      none (some "http://a/x") ["http://a"]).2.2.2 "http://a/x" "http://a"
      (by decide) rfl rfl (by decide) (by decide)⟩

/-- C7: the middleware is *not* total.  `onRequest` calls
`validateOrigin(request)` with no try/catch, and `validateOrigin`
evaluates `new URL(referer).origin` whenever the allow-list is non-empty,
Origin is absent (or empty) and Referer is non-empty; a Referer that is
not a well-formed URL makes the constructor throw, and the exception
(modelled as `none`) escapes instead of becoming a structured JSON
response.  The spec's propagation policy (§7) states the intent, so this
is a bug in the code. -/
theorem validateOrigin_referer_throw (parseOrigin : String → Option String)
    (r : String) (allowedOrigins : List String)
    (hthrow : parseOrigin r = none)
    (hr : r ≠ "") (hal : allowedOrigins ≠ []) :
    validateOrigin parseOrigin none (some r) allowedOrigins = none := by
  have hfr : isFalsyHeader (some r) = false := by
    simp [isFalsyHeader, hr]
  have hlen : (allowedOrigins.length == 0) = false := by
    simp [List.length_eq_zero, hal]
  simp [validateOrigin, hfr, hlen, hthrow]

theorem validateOrigin_referer_throw_witness :
    ((fun _ => (none : Option String)) "not a url" = none) ∧
    ("not a url" : String) ≠ "" ∧
    (["http://localhost:4321"] ≠ ([] : List String)) ∧
    validateOrigin (fun _ => none) none (some "not a url")
      ["http://localhost:4321"] = none :=
  ⟨rfl, by decide, by decide,
    validateOrigin_referer_throw (fun _ => none) "not a url"
      ["http://localhost:4321"] rfl (by decide) (by decide)⟩

/-! ## Field/form validator (`Validator.validateField` / `validateForm`)

Dynamically-typed field values are modelled by `JSValue` (strings,
integer-valued numbers, booleans, `null`, `undefined` — the values the
validator's falsiness test distinguishes).  A `ValidationRule` carries
the optional constraints; JS reads a missing property as `undefined`
(falsy), so absent `required` is `false` and absent bounds are `none`,
and the source's `rules.minLength && ...` guard also skips a *present*
bound equal to `0` (zero is falsy) — kept faithfully below. -/

/-- A dynamically-typed field value. -/
inductive JSValue where
  | vStr (s : String)
  | vNum (n : Int)
  | vBool (b : Bool)
  | vNull
  | vUndefined
deriving Repr, DecidableEq

/-- JS falsiness of a `JSValue`. -/
def JSValue.falsy : JSValue → Bool
  | vStr s => s == ""
  | vNum n => n == 0
  | vBool b => !b
  | vNull => true
  | vUndefined => true

/-- JS `value.toString()` (only reached on truthy values in the source,
where it never throws). -/
def JSValue.toStr : JSValue → String
  | vStr s => s
  | vNum n => toString n
  | vBool b => if b then "true" else "false"
  | vNull => "null"
  | vUndefined => "undefined"

/-- `.trim()` on a `String`. -/
def trimString (s : String) : String := String.mk (trimChars s.data)

/-- Result of a `custom` validator: `boolean | string`. -/
inductive CustomResult where
  | rBool (b : Bool)
  | rStr (s : String)
deriving Repr, DecidableEq

/-- `ValidationRule` of the validation module. -/
structure ValidationRule where
  required : Bool := false
  minLength : Option Nat := none
  maxLength : Option Nat := none
  pattern : Option (String → Bool) := none
  custom : Option (JSValue → CustomResult) := none
  sanitize : Option (String → String) := none

/-- `ValidationResult` of the validation module. -/
structure ValidationResult where
  isValid : Bool
  errors : List String
  sanitizedValue : JSValue
deriving Repr, DecidableEq

/-- `FormValidationResult` of the validation module. -/
structure FormValidationResult where
  isValid : Bool
  errors : List (String × List String)
  sanitizedData : List (String × JSValue)
deriving Repr, DecidableEq

/-- The first step of `validateField`: run `rules.sanitize` when present
and the value is a string. -/
def applySanitize (value : JSValue) (rules : ValidationRule) : JSValue :=
  match value, rules.sanitize with
  | JSValue.vStr s, some f => JSValue.vStr (f s)
  | v, _ => v

/-- `'Este campo es requerido'`. -/
def requiredMsg : String := "Este campo es requerido"

/-- `` `Debe tener al menos ${rules.minLength} caracteres` ``. -/
def minLengthMsg (m : Nat) : String :=
  "Debe tener al menos " ++ toString m ++ " caracteres"

/-- `` `No puede tener más de ${rules.maxLength} caracteres` ``. -/
def maxLengthMsg (m : Nat) : String :=
  "No puede tener más de " ++ toString m ++ " caracteres"

/-- `'El formato no es válido'`. -/
def patternMsg : String := "El formato no es válido"

/-- `'El valor no es válido'`. -/
def customMsg : String := "El valor no es válido"

/-- Embedding of `Validator.validateField(value, rules)`. -/
def validateField (value : JSValue) (rules : ValidationRule) :
    ValidationResult :=
  let sanitizedValue := applySanitize value rules
  -- Required validation
  if rules.required && (sanitizedValue.falsy
      || trimString sanitizedValue.toStr == "") then
    ⟨false, [requiredMsg], sanitizedValue⟩
  -- Skip other validations if field is empty and not required
  else if sanitizedValue.falsy && !rules.required then
    ⟨true, [], sanitizedValue⟩
  else
    let errors :=
      (match rules.minLength with
        | some m =>
          if !(m == 0) && decide (sanitizedValue.toStr.length < m) then
            [minLengthMsg m]
          else []
        | none => [])
      ++ (match rules.maxLength with
        | some m =>
          if !(m == 0) && decide (sanitizedValue.toStr.length > m) then
            [maxLengthMsg m]
          else []
        | none => [])
      ++ (match rules.pattern with
        | some p => if p sanitizedValue.toStr then [] else [patternMsg]
        | none => [])
      ++ (match rules.custom with
        | some f =>
          match f sanitizedValue with
          | CustomResult.rStr msg => [msg]
          | CustomResult.rBool b => if b then [] else [customMsg]
        | none => [])
    ⟨errors.isEmpty, errors, sanitizedValue⟩

/-- Embedding of `Validator.validateForm(data, schema)`: the record
`data` is a total map (a missing property reads as `undefined`), the
schema an ordered list of `Object.entries`. -/
def validateForm (data : String → JSValue)
    (schema : List (String × ValidationRule)) : FormValidationResult :=
  match schema with
  | [] => ⟨true, [], []⟩
  | (fieldName, rules) :: rest =>
    let result := validateField (data fieldName) rules
    let restResult := validateForm data rest
    ⟨result.isValid && restResult.isValid,
      (if result.isValid then [] else [(fieldName, result.errors)])
        ++ restResult.errors,
      (fieldName, result.sanitizedValue) :: restResult.sanitizedData⟩

/-- C8: for a rule with `required = true` and a value whose sanitized
form is a string that is empty or whitespace-only, `validateField`
returns invalid with exactly the single required-error and the sanitized
value, independent of every other rule field (the remaining checks never
run). -/
theorem validateField_required_short_circuit (value : JSValue)
    (rules : ValidationRule) (s : String)
    (hreq : rules.required = true)
    (hsan : applySanitize value rules = JSValue.vStr s)
    (htrim : trimString s = "") :
    validateField value rules = ⟨false, [requiredMsg], JSValue.vStr s⟩ := by
  simp [validateField, hsan, hreq, JSValue.toStr, htrim]

theorem validateField_required_short_circuit_witness :
    ({ required := true, minLength := some 3 } : ValidationRule).required
      = true ∧
    applySanitize (JSValue.vStr "  ") { required := true, minLength := some 3 }
      = JSValue.vStr "  " ∧
    trimString "  " = "" ∧
    validateField (JSValue.vStr "  ") { required := true, minLength := some 3 }
      = ⟨false, [requiredMsg], JSValue.vStr "  "⟩ :=
  ⟨rfl, rfl, by decide,
    validateField_required_short_circuit (JSValue.vStr "  ")
      { required := true, minLength := some 3 } "  " rfl rfl (by decide)⟩

/-- C9: `validateForm` validates each schema field independently with
`validateField` and merges: `errors` holds exactly the failing fields
(keyed by field name, with that field's error list), `sanitizedData`
holds every schema field's sanitized value regardless of validity, and
`isValid` holds iff no field failed. -/
theorem validateForm_merge (data : String → JSValue)
    (schema : List (String × ValidationRule)) :
    (validateForm data schema).sanitizedData
      = schema.map (fun p => (p.1, (validateField (data p.1) p.2).sanitizedValue)) ∧
    (validateForm data schema).errors
      = schema.filterMap (fun p =>
          if (validateField (data p.1) p.2).isValid then none
          else some (p.1, (validateField (data p.1) p.2).errors)) ∧
    ((validateForm data schema).isValid = true
      ↔ ∀ p ∈ schema, (validateField (data p.1) p.2).isValid = true) := by
  induction schema with
  | nil => simp [validateForm]
  | cons hd tl ih =>
    rcases hd with ⟨fieldName, rules⟩
    refine ⟨?_, ?_, ?_⟩
    · simp [validateForm, ih.1]
    · by_cases hv : (validateField (data fieldName) rules).isValid
      · simp [validateForm, hv, List.filterMap_cons, ih.2.1]
      · simp only [Bool.not_eq_true] at hv
        simp [validateForm, hv, List.filterMap_cons, ih.2.1]
    · simp only [validateForm, Bool.and_eq_true, List.mem_cons]
      constructor
      · rintro ⟨h1, h2⟩ p hp
        rcases hp with rfl | hp
        · exact h1
        · exact (ih.2.2.mp h2) p hp
      · intro h
        exact ⟨h _ (Or.inl rfl), ih.2.2.mpr (fun p hp => h p (Or.inr hp))⟩

/-- C10 counterexample: the claim as stated is false.  The falsiness
test is applied to the value *after* sanitization: with
`{ required: true, sanitize: _ => "x" }` the falsy value `""` is
rewritten to the truthy, non-whitespace `"x"` before the required check,
so `validateField` returns `isValid = true` with no errors, not the
single required error the claim demands for every falsy value. -/
theorem validateField_falsiness_cex :
    (JSValue.vStr "").falsy = true ∧
    validateField (JSValue.vStr "")
        { required := true, sanitize := some (fun _ => "x") }
      = ⟨true, [], JSValue.vStr "x"⟩ := by
  constructor
  · decide
  · rfl

/-- C10 amended: `validateField`'s emptiness test is JS falsiness of the
*sanitized* value.  With `required`, any value whose sanitized form is
falsy yields exactly the single required error; without `required`, any
value whose sanitized form is falsy passes trivially with no errors,
skipping the `minLength`/`maxLength`/`pattern`/`custom` checks entirely.
The non-string falsy values `0`, `false`, `null`, `undefined` are left
unchanged by sanitization, so both statements apply to them under every
rule; a falsy *string* can escape both when `rule.sanitize` rewrites it
to a truthy string. -/
theorem validateField_falsiness :
    (∀ (rules : ValidationRule) (v : JSValue),
      rules.required = true → (applySanitize v rules).falsy = true →
      validateField v rules
        = ⟨false, [requiredMsg], applySanitize v rules⟩) ∧
    (∀ (rules : ValidationRule) (v : JSValue),
      rules.required = false → (applySanitize v rules).falsy = true →
      validateField v rules = ⟨true, [], applySanitize v rules⟩) ∧
    (∀ (rules : ValidationRule) (v : JSValue),
      (v = JSValue.vNum 0 ∨ v = JSValue.vBool false ∨ v = JSValue.vNull
        ∨ v = JSValue.vUndefined) →
      applySanitize v rules = v ∧ v.falsy = true) := by
  refine ⟨?_, ?_, ?_⟩
  · intro rules v hreq hfalsy
    simp [validateField, hreq, hfalsy]
  · intro rules v hreq hfalsy
    simp [validateField, hreq, hfalsy]
  · intro rules v hv
    rcases hv with rfl | rfl | rfl | rfl <;>
      exact ⟨by cases h : rules.sanitize <;> rfl, by decide⟩

theorem validateField_falsiness_witness :
    ({ required := true, minLength := some 2 } : ValidationRule).required
        = true ∧
    (applySanitize (JSValue.vNum 0)
        { required := true, minLength := some 2 }).falsy = true ∧
    validateField (JSValue.vNum 0) { required := true, minLength := some 2 }
      = ⟨false, [requiredMsg],
          applySanitize (JSValue.vNum 0) { required := true, minLength := some 2 }⟩ ∧
    ({ minLength := some 2 } : ValidationRule).required = false ∧
    (applySanitize (JSValue.vBool false) { minLength := some 2 }).falsy
        = true ∧
    validateField (JSValue.vBool false) { minLength := some 2 }
      = ⟨true, [],
          applySanitize (JSValue.vBool false) { minLength := some 2 }⟩ ∧
    (JSValue.vNull = JSValue.vNum 0 ∨ JSValue.vNull = JSValue.vBool false
      ∨ JSValue.vNull = JSValue.vNull ∨ JSValue.vNull = JSValue.vUndefined) ∧
    (applySanitize JSValue.vNull { minLength := some 2 } = JSValue.vNull ∧
      JSValue.vNull.falsy = true) :=
  ⟨rfl, rfl,
    validateField_falsiness.1 { required := true, minLength := some 2 }
      (JSValue.vNum 0) rfl rfl,
    rfl, rfl,
    validateField_falsiness.2.1 { minLength := some 2 }
      (JSValue.vBool false) rfl rfl,
    Or.inr (Or.inr (Or.inl rfl)),
    validateField_falsiness.2.2 { minLength := some 2 } JSValue.vNull
      (Or.inr (Or.inr (Or.inl rfl)))⟩
